import Mathlib

/-
Verification of the dubtransit vehicle position simulation engine.

The engine consists of two near-duplicate generator implementations:
  * `generateSimulatedVehiclesForRoute` in src/components/MapScreen.tsx
    (headway 10 min, trip 60 min, a `total === 0` short circuit, no phase
    shift for direction 1), embedded here in namespace `MapScreen`;
  * `generateSimulatedVehiclesForRoute` in src/src/services/transportService.ts
    (headway 15 min, trip 45 min, a `|| 1` divide guard, direction 1 offset
    by half a headway), embedded here in namespace `TransportService`;
plus the client side `SmoothMarker` position interpolator of MapScreen.tsx.

Numbers are embedded as rationals.  The haversine `calculateDistance`
(src/utils.ts and the local copy in transportService.ts) is transcendental,
so every definition takes the distance function as an explicit parameter
`dist lat1 lon1 lat2 lon2`; theorems that need it assume only nonnegativity,
which holds for the haversine (earth radius times a nonnegative arc).
Concrete witnesses instantiate `dist` with a computable nonnegative
function that agrees with the haversine on the facts used (it vanishes on
identical points and is nonnegative).
-/

namespace DubTransit

/-- A geographic coordinate as a (latitude, longitude) pair of rationals,
mirroring the `[number, number]` shape points of the source. -/
abbrev Coord := ℚ × ℚ

/-- The only field of the source `Route` interface the generators read. -/
structure Route where
  route_id : String
deriving DecidableEq, Repr

/-- Reference timestamp: the pieces of a JavaScript `Date` the generators
read (`getHours`, `getMinutes`, `getSeconds`, `getTime`). -/
structure DateTime where
  hours : ℕ
  minutes : ℕ
  seconds : ℕ
  epochMs : ℤ
deriving DecidableEq, Repr

/-- The fields of the source `LiveVehicle` interface that the generators
assign.  MapScreen leaves `heading` unset (`none`); transportService sets
it to `0`. -/
structure LiveVehicle where
  vehicle_id : String
  trip_id : String
  route_id : String
  latitude : ℚ
  longitude : ℚ
  timestamp : ℤ
  direction_id : ℕ
  heading : Option ℕ
deriving DecidableEq, Repr

/-- Placeholder vehicle used as the default of list lookups in statements. -/
def noVehicle : LiveVehicle :=
  { vehicle_id := "", trip_id := "", route_id := "", latitude := 0,
    longitude := 0, timestamp := 0, direction_id := 0, heading := none }

/-- The coordinate a vehicle record carries. -/
def coordOf (v : LiveVehicle) : Coord := (v.latitude, v.longitude)

/-- Truncation toward zero, as JavaScript division underlying `%` uses. -/
def jsTrunc (a : ℚ) : ℤ := if 0 ≤ a then ⌊a⌋ else ⌈a⌉

/-- JavaScript remainder `a % b`: `a - b * trunc (a / b)` (the sign follows
the dividend). -/
def jsMod (a b : ℚ) : ℚ := a - b * jsTrunc (a / b)

/-- The normalization `((f % 1) + 1) % 1` both samplers apply, wrapping any
fraction into [0, 1). -/
def wrap01 (f : ℚ) : ℚ := jsMod (jsMod f 1 + 1) 1

/-- Source `minutesSinceMidnight` / `timeVal` of the generators:
`getHours() * 60 + getMinutes() + getSeconds() / 60`. -/
def minutesSinceMidnight (t : DateTime) : ℚ :=
  (t.hours : ℚ) * 60 + (t.minutes : ℚ) + (t.seconds : ℚ) / 60

/-- Wrap a minute count into one day, used to state what advancing a `Date`
by some minutes does to `minutesSinceMidnight` (it wraps modulo 1440). -/
def wrapDay (m : ℚ) : ℚ := m - 1440 * ⌊m / 1440⌋

/-- The cumulative distance loop body shared by both generators: walking the
remaining points, each step pushes `acc + d(previous, next)`. -/
def cumAux (dist : ℚ → ℚ → ℚ → ℚ → ℚ) : Coord → ℚ → List Coord → List ℚ
  | _, _, [] => []
  | p, acc, q :: rest =>
      (acc + dist p.1 p.2 q.1 q.2) :: cumAux dist q (acc + dist p.1 p.2 q.1 q.2) rest

/-- The `cumulative` array: starts as `[0]`, then one running total per
further path point. -/
def cumulativeOf (dist : ℚ → ℚ → ℚ → ℚ → ℚ) : List Coord → List ℚ
  | [] => [0]
  | p :: rest => 0 :: cumAux dist p 0 rest

/-- The running `total` / `totalDistance` variable at the end of the loop:
the last entry of `cumulative` (0 when the path has at most one point). -/
def totalDistOf (dist : ℚ → ℚ → ℚ → ℚ → ℚ) (pts : List Coord) : ℚ :=
  (cumulativeOf dist pts).getD ((cumulativeOf dist pts).length - 1) 0

/-- The linear segment scan both samplers run:
`while (segIndex < cumulative.length - 1 && cumulative[segIndex+1] < targetDist) segIndex++`. -/
def segScan (target : ℚ) : List ℚ → ℕ
  | _ :: c2 :: rest => if c2 < target then segScan target (c2 :: rest) + 1 else 0
  | _ => 0

/-- Target distance along the path for a raw fraction: wrap, then scale by
the total length. -/
def targetDistOf (dist : ℚ → ℚ → ℚ → ℚ → ℚ) (pts : List Coord) (fraction : ℚ) : ℚ :=
  wrap01 fraction * totalDistOf dist pts

/-- Index of the segment the sampler locates for a raw fraction. -/
def segIndexOf (dist : ℚ → ℚ → ℚ → ℚ → ℚ) (pts : List Coord) (fraction : ℚ) : ℕ :=
  segScan (targetDistOf dist pts fraction) (cumulativeOf dist pts)

/-- JavaScript `x || y` on numbers: `y` when `x` is `0`, else `x` (the
transportService divide guard `(segEnd - segStart || 1)`). -/
def jsOr (x y : ℚ) : ℚ := if x = 0 then y else x

namespace MapScreen

/-- Coordinate computation of `makeVehicleAtFraction`
(src/components/MapScreen.tsx, lines 108-125): wrap the fraction, locate the
segment by linear scan, and linearly interpolate inside it; a zero-length
segment gets interpolation factor 0 via the explicit
`segEnd === segStart ? 0 : ...` ternary. -/
def samplePath (dist : ℚ → ℚ → ℚ → ℚ → ℚ) (pts : List Coord) (fraction : ℚ) : Coord :=
  let cumulative := cumulativeOf dist pts
  let targetDist := targetDistOf dist pts fraction
  let segIndex := segIndexOf dist pts fraction
  let segStart := cumulative.getD segIndex 0
  let segEnd := cumulative.getD (min (segIndex + 1) (cumulative.length - 1)) 0
  let segFraction := if segEnd = segStart then 0 else (targetDist - segStart) / (segEnd - segStart)
  let p1 := pts.getD segIndex (0, 0)
  let p2 := pts.getD (min (segIndex + 1) (pts.length - 1)) (0, 0)
  (p1.1 + (p2.1 - p1.1) * segFraction, p1.2 + (p2.2 - p1.2) * segFraction)

/-- A stable simulated vehicle identifier: `SIM-${route_id}-${dir}-${index}`. -/
def simVehicleId (rid : String) (dir index : ℕ) : String :=
  "SIM-" ++ rid ++ "-" ++ toString dir ++ "-" ++ toString index

/-- The record `makeVehicleAtFraction` pushes (MapScreen.tsx, lines 127-136). -/
def makeVehicleAtFraction (dist : ℚ → ℚ → ℚ → ℚ → ℚ) (route : Route) (pts : List Coord)
    (now : DateTime) (fraction : ℚ) (index dir : ℕ) : LiveVehicle :=
  let c := samplePath dist pts fraction
  { vehicle_id := simVehicleId route.route_id dir index
    trip_id := route.route_id ++ "-sim-" ++ toString dir ++ "-" ++ toString index
    route_id := route.route_id
    latitude := c.1
    longitude := c.2
    timestamp := now.epochMs
    direction_id := dir
    heading := none }

/-- Constant `HEADWAY_MIN = 10` (MapScreen.tsx). -/
def HEADWAY_MIN : ℚ := 10

/-- Constant `TRIP_MIN = 60` (MapScreen.tsx). -/
def TRIP_MIN : ℚ := 60

/-- Source `busesPerDirection = Math.max(1, Math.ceil(TRIP_MIN / HEADWAY_MIN))`. -/
def busesPerDirection : ℕ := max 1 (Int.toNat ⌈TRIP_MIN / HEADWAY_MIN⌉)

/-- The MapScreen.tsx generator (lines 81-152): empty list for a path with
fewer than 2 points or with total length 0; otherwise, for each direction and
slot, a vehicle at progress `(minutesSinceMidnight - i * headway) / trip`,
inverted (`1 - prog`) for direction 1. -/
def generateSimulatedVehiclesForRoute (dist : ℚ → ℚ → ℚ → ℚ → ℚ) (route : Route)
    (shapePoints : List Coord) (now : DateTime) : List LiveVehicle :=
  if shapePoints.length < 2 then [] else
  if totalDistOf dist shapePoints = 0 then [] else
  let m := minutesSinceMidnight now
  (List.range busesPerDirection).map (fun (i : ℕ) =>
    makeVehicleAtFraction dist route shapePoints now
      ((m - (i : ℚ) * HEADWAY_MIN) / TRIP_MIN) i 0)
  ++ (List.range busesPerDirection).map (fun (i : ℕ) =>
    makeVehicleAtFraction dist route shapePoints now
      (1 - (m - (i : ℚ) * HEADWAY_MIN) / TRIP_MIN) i 1)

end MapScreen

namespace TransportService

/-- Coordinate computation of `placeVehicle`
(src/src/services/transportService.ts, lines 159-175): as MapScreen's
sampler, except the zero-length guard is `(segEnd - segStart || 1)` in the
divisor. -/
def samplePath (dist : ℚ → ℚ → ℚ → ℚ → ℚ) (pts : List Coord) (pct : ℚ) : Coord :=
  let cumulative := cumulativeOf dist pts
  let targetDist := targetDistOf dist pts pct
  let i := segIndexOf dist pts pct
  let segStart := cumulative.getD i 0
  let segEnd := cumulative.getD (min (i + 1) (cumulative.length - 1)) 0
  let segPct := (targetDist - segStart) / jsOr (segEnd - segStart) 1
  let p1 := pts.getD i (0, 0)
  let p2 := pts.getD (min (i + 1) (pts.length - 1)) (0, 0)
  (p1.1 + (p2.1 - p1.1) * segPct, p1.2 + (p2.2 - p1.2) * segPct)

/-- The identifier `GTFS-${route_id}-${dir}-${idx}`. -/
def gtfsVehicleId (rid : String) (dir idx : ℕ) : String :=
  "GTFS-" ++ rid ++ "-" ++ toString dir ++ "-" ++ toString idx

/-- The record `placeVehicle` pushes (transportService.ts, lines 177-187). -/
def placeVehicle (dist : ℚ → ℚ → ℚ → ℚ → ℚ) (route : Route) (pts : List Coord)
    (now : DateTime) (pct : ℚ) (dir idx : ℕ) : LiveVehicle :=
  let c := samplePath dist pts pct
  { vehicle_id := gtfsVehicleId route.route_id dir idx
    trip_id := "TRIP-" ++ route.route_id ++ "-" ++ toString idx
    route_id := route.route_id
    latitude := c.1
    longitude := c.2
    timestamp := now.epochMs
    direction_id := dir
    heading := some 0 }

/-- Constant `HEADWAY_MIN = 15` (transportService.ts). -/
def HEADWAY_MIN : ℚ := 15

/-- Constant `TRIP_DURATION_MIN = 45` (transportService.ts). -/
def TRIP_DURATION_MIN : ℚ := 45

/-- Source `busesPerDir = Math.ceil(TRIP_DURATION_MIN / HEADWAY_MIN)`. -/
def busesPerDir : ℕ := Int.toNat ⌈TRIP_DURATION_MIN / HEADWAY_MIN⌉

/-- The transportService.ts generator (lines 132-204): empty list for a path
with fewer than 2 points; otherwise, per direction and slot, a vehicle at
progress `(timeVal - offset) / trip`, where direction 1 uses offset
`i * headway + headway / 2` and the inverted fraction `1 - prog`. -/
def generateSimulatedVehiclesForRoute (dist : ℚ → ℚ → ℚ → ℚ → ℚ) (route : Route)
    (shapePoints : List Coord) (now : DateTime) : List LiveVehicle :=
  if shapePoints.length < 2 then [] else
  let timeVal := minutesSinceMidnight now
  (List.range busesPerDir).map (fun (i : ℕ) =>
    placeVehicle dist route shapePoints now
      ((timeVal - (i : ℚ) * HEADWAY_MIN) / TRIP_DURATION_MIN) 0 i)
  ++ (List.range busesPerDir).map (fun (i : ℕ) =>
    placeVehicle dist route shapePoints now
      (1 - (timeVal - ((i : ℚ) * HEADWAY_MIN + HEADWAY_MIN / 2)) / TRIP_DURATION_MIN) 1 i)

end TransportService

/-- A computable stand-in for the haversine in concrete witnesses: taxicab
distance on raw degrees.  Like the haversine it is nonnegative and vanishes
exactly on identical points. -/
def taxiDist (lat1 lon1 lat2 lon2 : ℚ) : ℚ := |lat2 - lat1| + |lon2 - lon1|

lemma jsTrunc_of_nonneg {f : ℚ} (h : 0 ≤ f) : jsTrunc f = ⌊f⌋ := if_pos h

lemma jsTrunc_of_neg {f : ℚ} (h : ¬ 0 ≤ f) : jsTrunc f = ⌈f⌉ := if_neg h

/-- The double-mod normalization is exactly the floor fractional part. -/
lemma wrap01_eq_fract (f : ℚ) : wrap01 f = Int.fract f := by
  unfold wrap01 jsMod
  rw [div_one, div_one]
  by_cases h : 0 ≤ f
  · rw [jsTrunc_of_nonneg h]
    have h1 : f - 1 * (⌊f⌋ : ℚ) = Int.fract f := by rw [Int.fract]; ring
    rw [h1]
    have h2 : 0 ≤ Int.fract f + 1 := by have := Int.fract_nonneg f; linarith
    rw [jsTrunc_of_nonneg h2]
    have h3 : ⌊Int.fract f + 1⌋ = 1 := by
      rw [Int.floor_add_one, Int.floor_fract]
      norm_num
    rw [h3]
    push_cast
    ring
  · rw [jsTrunc_of_neg h]
    by_cases hz : Int.fract f = 0
    · have hf : f = (⌊f⌋ : ℚ) := by
        rw [Int.fract] at hz; linarith
      have hceil : (⌈f⌉ : ℚ) = f := by
        rw [hf]
        norm_cast
        exact Int.ceil_intCast ⌊f⌋
      rw [hceil]
      have h4 : f - 1 * f + 1 = 1 := by ring
      rw [h4, jsTrunc_of_nonneg (by norm_num : (0:ℚ) ≤ 1)]
      have h5 : ⌊(1:ℚ)⌋ = 1 := Int.floor_one
      rw [h5, hz]
      push_cast; ring
    · have hcf : ⌈f⌉ = ⌊f⌋ + 1 := by
        have h1 := Int.ceil_le_floor_add_one f
        have h2 := Int.floor_le_ceil f
        have h3 : ⌊f⌋ ≠ ⌈f⌉ := by
          intro he
          apply hz
          have hle := Int.floor_le f
          have hge := Int.le_ceil f
          rw [Int.fract]
          rw [he] at hle
          have : f = (⌈f⌉ : ℚ) := le_antisymm hge hle
          rw [← he] at this
          linarith
        omega
      rw [hcf]
      have he : f - 1 * ((⌊f⌋ + 1 : ℤ) : ℚ) + 1 = Int.fract f := by
        rw [Int.fract]; push_cast; ring
      rw [he, jsTrunc_of_nonneg (Int.fract_nonneg f), Int.floor_fract]
      push_cast; ring

lemma wrap01_nonneg (f : ℚ) : 0 ≤ wrap01 f := by
  rw [wrap01_eq_fract]; exact Int.fract_nonneg f

lemma wrap01_lt_one (f : ℚ) : wrap01 f < 1 := by
  rw [wrap01_eq_fract]; exact Int.fract_lt_one f

/-- Wrapping is invariant under shifting the raw fraction by an integer. -/
lemma wrap01_add_int (f : ℚ) (n : ℤ) : wrap01 (f + n) = wrap01 f := by
  rw [wrap01_eq_fract, wrap01_eq_fract, Int.fract_add_int]

/-- Inverting an already wrapped fraction wraps to the same value as
inverting the raw fraction. -/
lemma wrap01_one_sub_wrap (p : ℚ) : wrap01 (1 - wrap01 p) = wrap01 (1 - p) := by
  rw [wrap01_eq_fract (1 - wrap01 p), wrap01_eq_fract (1 - p), wrap01_eq_fract p]
  have h : 1 - Int.fract p = 1 - p + (⌊p⌋ : ℚ) := by rw [Int.fract]; ring
  rw [h, Int.fract_add_int]

lemma getD_mem {α : Type} {l : List α} {i : ℕ} (h : i < l.length) (d : α) :
    l.getD i d ∈ l := by
  induction l generalizing i with
  | nil => simp at h
  | cons a t ih =>
    cases i with
    | zero => simp
    | succ n =>
      have hn : n < t.length := by simpa using h
      simp only [List.getD_cons_succ]
      exact List.mem_cons_of_mem _ (ih hn)

lemma length_cumAux (dist : ℚ → ℚ → ℚ → ℚ → ℚ) (p : Coord) (acc : ℚ) (l : List Coord) :
    (cumAux dist p acc l).length = l.length := by
  induction l generalizing p acc with
  | nil => simp [cumAux]
  | cons q rest ih => simp [cumAux, ih]

lemma length_cumulativeOf (dist : ℚ → ℚ → ℚ → ℚ → ℚ) {pts : List Coord} (h : pts ≠ []) :
    (cumulativeOf dist pts).length = pts.length := by
  cases pts with
  | nil => exact absurd rfl h
  | cons p rest => simp [cumulativeOf, length_cumAux]

lemma cumulative_length_pos (dist : ℚ → ℚ → ℚ → ℚ → ℚ) (pts : List Coord) :
    0 < (cumulativeOf dist pts).length := by
  cases pts <;> simp [cumulativeOf]

lemma cumulative_getD_zero (dist : ℚ → ℚ → ℚ → ℚ → ℚ) (pts : List Coord) :
    (cumulativeOf dist pts).getD 0 0 = 0 := by
  cases pts <;> simp [cumulativeOf]

lemma cumAux_head_ge (dist : ℚ → ℚ → ℚ → ℚ → ℚ)
    (hnn : ∀ a b c d, 0 ≤ dist a b c d) (q : Coord) (acc : ℚ) {rest : List Coord}
    (h : rest ≠ []) : acc ≤ (cumAux dist q acc rest).getD 0 0 := by
  cases rest with
  | nil => exact absurd rfl h
  | cons r rr =>
    simp only [cumAux, List.getD_cons_zero]
    exact le_add_of_nonneg_right (hnn _ _ _ _)

lemma cumAux_adj (dist : ℚ → ℚ → ℚ → ℚ → ℚ) (hnn : ∀ a b c d, 0 ≤ dist a b c d) :
    ∀ (l : List Coord) (p : Coord) (acc : ℚ) (i : ℕ), i + 1 < l.length →
      (cumAux dist p acc l).getD i 0 ≤ (cumAux dist p acc l).getD (i + 1) 0 := by
  intro l
  induction l with
  | nil => intro p acc i h; simp at h
  | cons q rest ih =>
    intro p acc i h
    cases i with
    | zero =>
      have hrest : rest ≠ [] := by
        intro hr; rw [hr] at h; simp at h
      simp only [cumAux, List.getD_cons_zero, List.getD_cons_succ]
      exact cumAux_head_ge dist hnn q _ hrest
    | succ n =>
      have hn : n + 1 < rest.length := by simpa using h
      simp only [cumAux, List.getD_cons_succ]
      exact ih q _ n hn

lemma cumulative_adj (dist : ℚ → ℚ → ℚ → ℚ → ℚ) (hnn : ∀ a b c d, 0 ≤ dist a b c d)
    {pts : List Coord} (i : ℕ) (h : i + 1 < (cumulativeOf dist pts).length) :
    (cumulativeOf dist pts).getD i 0 ≤ (cumulativeOf dist pts).getD (i + 1) 0 := by
  cases pts with
  | nil => simp [cumulativeOf] at h
  | cons p rest =>
    cases i with
    | zero =>
      have hrest : rest ≠ [] := by
        intro hr
        rw [hr] at h
        simp [cumulativeOf, cumAux] at h
      simp only [cumulativeOf, List.getD_cons_zero, List.getD_cons_succ]
      have := cumAux_head_ge dist hnn p 0 hrest
      simpa using this
    | succ n =>
      have hn : n + 1 < rest.length := by
        have h1 : n + 1 < (cumAux dist p 0 rest).length := by
          simpa [cumulativeOf] using h
        rwa [length_cumAux] at h1
      simp only [cumulativeOf, List.getD_cons_succ]
      exact cumAux_adj dist hnn rest p 0 n hn

lemma cumulative_mono (dist : ℚ → ℚ → ℚ → ℚ → ℚ) (hnn : ∀ a b c d, 0 ≤ dist a b c d)
    {pts : List Coord} {i j : ℕ} (hij : i ≤ j) (hj : j < (cumulativeOf dist pts).length) :
    (cumulativeOf dist pts).getD i 0 ≤ (cumulativeOf dist pts).getD j 0 := by
  induction j with
  | zero =>
    have : i = 0 := Nat.le_zero.mp hij
    simp [this]
  | succ n ih =>
    rcases Nat.lt_or_ge i (n + 1) with hlt | hge
    · have h1 : i ≤ n := Nat.lt_succ_iff.mp hlt
      have h2 : n < (cumulativeOf dist pts).length := Nat.lt_of_succ_lt hj
      exact le_trans (ih h1 h2) (cumulative_adj dist hnn n hj)
    · have : i = n + 1 := le_antisymm hij hge
      simp [this]

lemma totalDist_nonneg (dist : ℚ → ℚ → ℚ → ℚ → ℚ) (hnn : ∀ a b c d, 0 ≤ dist a b c d)
    (pts : List Coord) : 0 ≤ totalDistOf dist pts := by
  unfold totalDistOf
  have hpos := cumulative_length_pos dist pts
  have h0 := cumulative_getD_zero dist pts
  calc (0 : ℚ) = (cumulativeOf dist pts).getD 0 0 := h0.symm
    _ ≤ (cumulativeOf dist pts).getD ((cumulativeOf dist pts).length - 1) 0 :=
        cumulative_mono dist hnn (Nat.zero_le _) (by omega)

lemma segScan_lt_length (t : ℚ) : ∀ {cum : List ℚ}, cum ≠ [] → segScan t cum < cum.length := by
  intro cum
  induction cum with
  | nil => intro h; exact absurd rfl h
  | cons c1 rest ih =>
    intro _
    cases rest with
    | nil => simp [segScan]
    | cons c2 rr =>
      by_cases h : c2 < t
      · have h2 := ih (by simp)
        simp only [List.length_cons] at h2
        simp only [segScan, if_pos h, List.length_cons]
        omega
      · simp [segScan, if_neg h]

lemma segScan_start_le (t : ℚ) : ∀ {cum : List ℚ}, cum.getD 0 0 ≤ t →
    cum.getD (segScan t cum) 0 ≤ t := by
  intro cum
  induction cum with
  | nil => intro h; simpa [segScan] using h
  | cons c1 rest ih =>
    intro h0
    cases rest with
    | nil => simpa [segScan] using h0
    | cons c2 rr =>
      by_cases h : c2 < t
      · simp only [segScan, if_pos h, List.getD_cons_succ]
        exact ih (by simpa using le_of_lt h)
      · simpa [segScan, if_neg h] using h0

lemma segScan_next_ge (t : ℚ) : ∀ {cum : List ℚ}, segScan t cum + 1 < cum.length →
    t ≤ cum.getD (segScan t cum + 1) 0 := by
  intro cum
  induction cum with
  | nil => intro h; simp [segScan] at h
  | cons c1 rest ih =>
    intro hlt
    cases rest with
    | nil => simp [segScan] at hlt
    | cons c2 rr =>
      by_cases h : c2 < t
      · simp only [segScan, if_pos h, List.length_cons] at hlt ⊢
        simp only [List.getD_cons_succ]
        exact ih (by simpa using hlt)
      · simp only [segScan, if_neg h, List.getD_cons_succ, List.getD_cons_zero]
        exact le_of_not_lt h

lemma segScan_pos_lt (t : ℚ) : ∀ {cum : List ℚ}, 0 < segScan t cum →
    cum.getD (segScan t cum) 0 < t := by
  intro cum
  induction cum with
  | nil => intro h; simp [segScan] at h
  | cons c1 rest ih =>
    intro hpos
    cases rest with
    | nil => simp [segScan] at hpos
    | cons c2 rr =>
      by_cases h : c2 < t
      · simp only [segScan, if_pos h, List.getD_cons_succ]
        rcases Nat.eq_zero_or_pos (segScan t (c2 :: rr)) with hz | hp
        · simpa [hz] using h
        · exact ih hp
      · simp [segScan, if_neg h] at hpos

lemma targetDist_nonneg (dist : ℚ → ℚ → ℚ → ℚ → ℚ) (hnn : ∀ a b c d, 0 ≤ dist a b c d)
    (pts : List Coord) (f : ℚ) : 0 ≤ targetDistOf dist pts f :=
  mul_nonneg (wrap01_nonneg f) (totalDist_nonneg dist hnn pts)

lemma targetDist_le_total (dist : ℚ → ℚ → ℚ → ℚ → ℚ) (hnn : ∀ a b c d, 0 ≤ dist a b c d)
    (pts : List Coord) (f : ℚ) : targetDistOf dist pts f ≤ totalDistOf dist pts := by
  unfold targetDistOf
  exact mul_le_of_le_one_left (totalDist_nonneg dist hnn pts) (le_of_lt (wrap01_lt_one f))

/-- Everything the samplers rely on about the located segment: the index is
interior (there is a next cumulative entry), and the target distance sits
between the two cumulative entries around it. -/
lemma located_segment (dist : ℚ → ℚ → ℚ → ℚ → ℚ) (hnn : ∀ a b c d, 0 ≤ dist a b c d)
    {pts : List Coord} (hlen : 2 ≤ pts.length) (f : ℚ) :
    segIndexOf dist pts f + 1 < (cumulativeOf dist pts).length ∧
    (cumulativeOf dist pts).getD (segIndexOf dist pts f) 0 ≤ targetDistOf dist pts f ∧
    targetDistOf dist pts f ≤ (cumulativeOf dist pts).getD (segIndexOf dist pts f + 1) 0 := by
  have hne : pts ≠ [] := by intro h; rw [h] at hlen; simp at hlen
  have hclen : (cumulativeOf dist pts).length = pts.length := length_cumulativeOf dist hne
  have ht0 : 0 ≤ targetDistOf dist pts f := targetDist_nonneg dist hnn pts f
  have htot : targetDistOf dist pts f ≤ totalDistOf dist pts :=
    targetDist_le_total dist hnn pts f
  have hk : segIndexOf dist pts f < (cumulativeOf dist pts).length :=
    segScan_lt_length _ (by intro h; have := cumulative_length_pos dist pts; rw [h] at this; simp at this)
  have hinterior : segIndexOf dist pts f + 1 < (cumulativeOf dist pts).length := by
    by_contra hcon
    have hkeq : segIndexOf dist pts f = (cumulativeOf dist pts).length - 1 := by omega
    have hkpos : 0 < segIndexOf dist pts f := by omega
    have hlt : (cumulativeOf dist pts).getD (segIndexOf dist pts f) 0 < targetDistOf dist pts f :=
      segScan_pos_lt _ hkpos
    rw [hkeq] at hlt
    have hcontr : totalDistOf dist pts < targetDistOf dist pts f := hlt
    linarith
  refine ⟨hinterior, ?_, segScan_next_ge _ hinterior⟩
  exact segScan_start_le _ (by rw [cumulative_getD_zero]; exact ht0)

/-- Minimum of `f` over a list (0 for the empty list); used to state the
bounding box of a path. -/
def listMinBy (f : Coord → ℚ) : List Coord → ℚ
  | [] => 0
  | x :: l => l.foldl (fun acc y => min acc (f y)) (f x)

/-- Maximum of `f` over a list (0 for the empty list). -/
def listMaxBy (f : Coord → ℚ) : List Coord → ℚ
  | [] => 0
  | x :: l => l.foldl (fun acc y => max acc (f y)) (f x)

lemma foldl_min_le_init (f : Coord → ℚ) (l : List Coord) (a : ℚ) :
    l.foldl (fun acc y => min acc (f y)) a ≤ a := by
  induction l generalizing a with
  | nil => simp
  | cons x t ih => exact le_trans (ih (min a (f x))) (min_le_left _ _)

lemma foldl_min_le_mem (f : Coord → ℚ) {l : List Coord} {x : Coord} (hx : x ∈ l) (a : ℚ) :
    l.foldl (fun acc y => min acc (f y)) a ≤ f x := by
  induction l generalizing a with
  | nil => simp at hx
  | cons z t ih =>
    rcases List.mem_cons.mp hx with rfl | hxt
    · exact le_trans (foldl_min_le_init f t (min a (f x))) (min_le_right _ _)
    · exact ih hxt _

lemma init_le_foldl_max (f : Coord → ℚ) (l : List Coord) (a : ℚ) :
    a ≤ l.foldl (fun acc y => max acc (f y)) a := by
  induction l generalizing a with
  | nil => simp
  | cons x t ih => exact le_trans (le_max_left _ _) (ih (max a (f x)))

lemma mem_le_foldl_max (f : Coord → ℚ) {l : List Coord} {x : Coord} (hx : x ∈ l) (a : ℚ) :
    f x ≤ l.foldl (fun acc y => max acc (f y)) a := by
  induction l generalizing a with
  | nil => simp at hx
  | cons z t ih =>
    rcases List.mem_cons.mp hx with rfl | hxt
    · exact le_trans (le_max_right _ _) (init_le_foldl_max f t (max a (f x)))
    · exact ih hxt _

lemma listMinBy_le (f : Coord → ℚ) {l : List Coord} {x : Coord} (hx : x ∈ l) :
    listMinBy f l ≤ f x := by
  cases l with
  | nil => simp at hx
  | cons z t =>
    rcases List.mem_cons.mp hx with rfl | hxt
    · exact foldl_min_le_init f t (f x)
    · exact foldl_min_le_mem f hxt (f z)

lemma le_listMaxBy (f : Coord → ℚ) {l : List Coord} {x : Coord} (hx : x ∈ l) :
    f x ≤ listMaxBy f l := by
  cases l with
  | nil => simp at hx
  | cons z t =>
    rcases List.mem_cons.mp hx with rfl | hxt
    · exact init_le_foldl_max f t (f x)
    · exact mem_le_foldl_max f hxt (f z)

/-- A convex combination `a + (b - a) * t` with `t` in [0, 1] stays between
`a` and `b`. -/
lemma lerp_bounds {a b t : ℚ} (h0 : 0 ≤ t) (h1 : t ≤ 1) :
    min a b ≤ a + (b - a) * t ∧ a + (b - a) * t ≤ max a b := by
  rcases le_total a b with hab | hba
  · rw [min_eq_left hab, max_eq_right hab]
    constructor <;> nlinarith
  · rw [min_eq_right hba, max_eq_left hba]
    constructor <;> nlinarith

namespace MapScreen

/-- The MapScreen sampler emits a convex combination of two consecutive path
points around the located segment. -/
lemma samplePath_eq_lerp_map (dist : ℚ → ℚ → ℚ → ℚ → ℚ) (hnn : ∀ a b c d, 0 ≤ dist a b c d)
    {pts : List Coord} (hlen : 2 ≤ pts.length) (f : ℚ) :
    ∃ i sf, i + 1 < pts.length ∧ 0 ≤ sf ∧ sf ≤ 1 ∧
      samplePath dist pts f =
        ((pts.getD i (0, 0)).1 + ((pts.getD (i + 1) (0, 0)).1 - (pts.getD i (0, 0)).1) * sf,
         (pts.getD i (0, 0)).2 + ((pts.getD (i + 1) (0, 0)).2 - (pts.getD i (0, 0)).2) * sf) := by
  obtain ⟨hint, hlo, hhi⟩ := located_segment dist hnn hlen f
  have hne : pts ≠ [] := by intro h; rw [h] at hlen; simp at hlen
  have hclen : (cumulativeOf dist pts).length = pts.length := length_cumulativeOf dist hne
  have hmin1 : min (segIndexOf dist pts f + 1) ((cumulativeOf dist pts).length - 1) =
      segIndexOf dist pts f + 1 := Nat.min_eq_left (by omega)
  have hmin2 : min (segIndexOf dist pts f + 1) (pts.length - 1) =
      segIndexOf dist pts f + 1 := Nat.min_eq_left (by omega)
  have hadj : (cumulativeOf dist pts).getD (segIndexOf dist pts f) 0 ≤
      (cumulativeOf dist pts).getD (segIndexOf dist pts f + 1) 0 :=
    cumulative_adj dist hnn _ hint
  refine ⟨segIndexOf dist pts f, ?_, by omega, ?_, ?_, ?_⟩
  case _ =>
    exact if (cumulativeOf dist pts).getD (segIndexOf dist pts f + 1) 0 =
        (cumulativeOf dist pts).getD (segIndexOf dist pts f) 0 then 0 else
      (targetDistOf dist pts f - (cumulativeOf dist pts).getD (segIndexOf dist pts f) 0) /
        ((cumulativeOf dist pts).getD (segIndexOf dist pts f + 1) 0 -
         (cumulativeOf dist pts).getD (segIndexOf dist pts f) 0)
  case _ =>
    split
    · exact le_refl 0
    · rename_i hne2
      have hlt : (cumulativeOf dist pts).getD (segIndexOf dist pts f) 0 <
          (cumulativeOf dist pts).getD (segIndexOf dist pts f + 1) 0 :=
        lt_of_le_of_ne hadj (fun h => hne2 h.symm)
      exact div_nonneg (by linarith) (by linarith)
  case _ =>
    split
    · norm_num
    · rename_i hne2
      have hlt : (cumulativeOf dist pts).getD (segIndexOf dist pts f) 0 <
          (cumulativeOf dist pts).getD (segIndexOf dist pts f + 1) 0 :=
        lt_of_le_of_ne hadj (fun h => hne2 h.symm)
      rw [div_le_one (by linarith)]
      linarith
  case _ =>
    simp only [samplePath, hmin1, hmin2]

end MapScreen

namespace TransportService

/-- The transportService sampler also emits a convex combination of two
consecutive path points around the located segment. -/
lemma samplePath_eq_lerp_trans (dist : ℚ → ℚ → ℚ → ℚ → ℚ) (hnn : ∀ a b c d, 0 ≤ dist a b c d)
    {pts : List Coord} (hlen : 2 ≤ pts.length) (f : ℚ) :
    ∃ i sf, i + 1 < pts.length ∧ 0 ≤ sf ∧ sf ≤ 1 ∧
      samplePath dist pts f =
        ((pts.getD i (0, 0)).1 + ((pts.getD (i + 1) (0, 0)).1 - (pts.getD i (0, 0)).1) * sf,
         (pts.getD i (0, 0)).2 + ((pts.getD (i + 1) (0, 0)).2 - (pts.getD i (0, 0)).2) * sf) := by
  obtain ⟨hint, hlo, hhi⟩ := located_segment dist hnn hlen f
  have hne : pts ≠ [] := by intro h; rw [h] at hlen; simp at hlen
  have hclen : (cumulativeOf dist pts).length = pts.length := length_cumulativeOf dist hne
  have hmin1 : min (segIndexOf dist pts f + 1) ((cumulativeOf dist pts).length - 1) =
      segIndexOf dist pts f + 1 := Nat.min_eq_left (by omega)
  have hmin2 : min (segIndexOf dist pts f + 1) (pts.length - 1) =
      segIndexOf dist pts f + 1 := Nat.min_eq_left (by omega)
  have hadj : (cumulativeOf dist pts).getD (segIndexOf dist pts f) 0 ≤
      (cumulativeOf dist pts).getD (segIndexOf dist pts f + 1) 0 :=
    cumulative_adj dist hnn _ hint
  refine ⟨segIndexOf dist pts f,
    (targetDistOf dist pts f - (cumulativeOf dist pts).getD (segIndexOf dist pts f) 0) /
      jsOr ((cumulativeOf dist pts).getD (segIndexOf dist pts f + 1) 0 -
            (cumulativeOf dist pts).getD (segIndexOf dist pts f) 0) 1,
    by omega, ?_, ?_, ?_⟩
  case _ =>
    unfold jsOr
    split
    · rename_i hz
      have hts : targetDistOf dist pts f = (cumulativeOf dist pts).getD (segIndexOf dist pts f) 0 := by
        have : (cumulativeOf dist pts).getD (segIndexOf dist pts f + 1) 0 =
            (cumulativeOf dist pts).getD (segIndexOf dist pts f) 0 := by linarith [sub_eq_zero.mp hz]
        linarith [this ▸ hhi]
      rw [hts]
      simp
    · rename_i hz
      have hlt : (cumulativeOf dist pts).getD (segIndexOf dist pts f) 0 <
          (cumulativeOf dist pts).getD (segIndexOf dist pts f + 1) 0 :=
        lt_of_le_of_ne hadj (fun h => hz (by linarith))
      exact div_nonneg (by linarith) (by linarith)
  case _ =>
    unfold jsOr
    split
    · rename_i hz
      have hts : targetDistOf dist pts f = (cumulativeOf dist pts).getD (segIndexOf dist pts f) 0 := by
        have : (cumulativeOf dist pts).getD (segIndexOf dist pts f + 1) 0 =
            (cumulativeOf dist pts).getD (segIndexOf dist pts f) 0 := by linarith [sub_eq_zero.mp hz]
        linarith [this ▸ hhi]
      rw [hts]
      simp
    · rename_i hz
      have hlt : (cumulativeOf dist pts).getD (segIndexOf dist pts f) 0 <
          (cumulativeOf dist pts).getD (segIndexOf dist pts f + 1) 0 :=
        lt_of_le_of_ne hadj (fun h => hz (by linarith))
      rw [div_le_one (by linarith)]
      linarith
  case _ =>
    simp only [samplePath, hmin1, hmin2]

end TransportService

/-- A point that is a convex combination of two members of the path lies in
the bounding box of the path. -/
lemma lerp_point_in_bbox {pts : List Coord} {c : Coord}
    (h : ∃ i sf, i + 1 < pts.length ∧ 0 ≤ sf ∧ sf ≤ 1 ∧
      c = ((pts.getD i (0, 0)).1 + ((pts.getD (i + 1) (0, 0)).1 - (pts.getD i (0, 0)).1) * sf,
           (pts.getD i (0, 0)).2 + ((pts.getD (i + 1) (0, 0)).2 - (pts.getD i (0, 0)).2) * sf)) :
    listMinBy Prod.fst pts ≤ c.1 ∧ c.1 ≤ listMaxBy Prod.fst pts ∧
    listMinBy Prod.snd pts ≤ c.2 ∧ c.2 ≤ listMaxBy Prod.snd pts := by
  obtain ⟨i, sf, hi, h0, h1, rfl⟩ := h
  have hp1 : pts.getD i (0, 0) ∈ pts := getD_mem (by omega) _
  have hp2 : pts.getD (i + 1) (0, 0) ∈ pts := getD_mem hi _
  have hlat := lerp_bounds (a := (pts.getD i (0, 0)).1) (b := (pts.getD (i + 1) (0, 0)).1) h0 h1
  have hlon := lerp_bounds (a := (pts.getD i (0, 0)).2) (b := (pts.getD (i + 1) (0, 0)).2) h0 h1
  refine ⟨?_, ?_, ?_, ?_⟩
  · exact le_trans (le_min (listMinBy_le Prod.fst hp1) (listMinBy_le Prod.fst hp2)) hlat.1
  · exact le_trans hlat.2 (max_le (le_listMaxBy Prod.fst hp1) (le_listMaxBy Prod.fst hp2))
  · exact le_trans (le_min (listMinBy_le Prod.snd hp1) (listMinBy_le Prod.snd hp2)) hlon.1
  · exact le_trans hlon.2 (max_le (le_listMaxBy Prod.snd hp1) (le_listMaxBy Prod.snd hp2))

/-- Every vehicle the MapScreen generator emits is built by
`makeVehicleAtFraction` from some fraction, slot, and direction. -/
lemma MapScreen.mem_generate_map {dist : ℚ → ℚ → ℚ → ℚ → ℚ} {route : Route} {pts : List Coord}
    {now : DateTime} {v : LiveVehicle}
    (hv : v ∈ MapScreen.generateSimulatedVehiclesForRoute dist route pts now) :
    ∃ f i d, v = MapScreen.makeVehicleAtFraction dist route pts now f i d := by
  unfold MapScreen.generateSimulatedVehiclesForRoute at hv
  split at hv
  · simp at hv
  split at hv
  · simp at hv
  simp only [List.mem_append, List.mem_map, List.mem_range] at hv
  rcases hv with ⟨i, _, rfl⟩ | ⟨i, _, rfl⟩
  · exact ⟨_, i, 0, rfl⟩
  · exact ⟨_, i, 1, rfl⟩

/-- Every vehicle the transportService generator emits is built by
`placeVehicle` from some fraction, direction, and slot. -/
lemma TransportService.mem_generate_trans {dist : ℚ → ℚ → ℚ → ℚ → ℚ} {route : Route}
    {pts : List Coord} {now : DateTime} {v : LiveVehicle}
    (hv : v ∈ TransportService.generateSimulatedVehiclesForRoute dist route pts now) :
    ∃ f d i, v = TransportService.placeVehicle dist route pts now f d i := by
  unfold TransportService.generateSimulatedVehiclesForRoute at hv
  split at hv
  · simp at hv
  simp only [List.mem_append, List.mem_map, List.mem_range] at hv
  rcases hv with ⟨i, _, rfl⟩ | ⟨i, _, rfl⟩
  · exact ⟨_, 0, i, rfl⟩
  · exact ⟨_, 1, i, rfl⟩

/-- C4.  Path containment: for a nonnegative distance function and a path
with at least two points, every coordinate either generator emits lies in
the bounding box of the path points — negative or over-unity raw progress
values are wrapped into [0, 1) and still sample on the path. -/
theorem c4_path_containment (dist : ℚ → ℚ → ℚ → ℚ → ℚ) (route : Route) (pts : List Coord)
    (now : DateTime) (hnn : ∀ a b c d, 0 ≤ dist a b c d) (hlen : 2 ≤ pts.length) :
    (∀ v ∈ MapScreen.generateSimulatedVehiclesForRoute dist route pts now,
      listMinBy Prod.fst pts ≤ v.latitude ∧ v.latitude ≤ listMaxBy Prod.fst pts ∧
      listMinBy Prod.snd pts ≤ v.longitude ∧ v.longitude ≤ listMaxBy Prod.snd pts) ∧
    (∀ v ∈ TransportService.generateSimulatedVehiclesForRoute dist route pts now,
      listMinBy Prod.fst pts ≤ v.latitude ∧ v.latitude ≤ listMaxBy Prod.fst pts ∧
      listMinBy Prod.snd pts ≤ v.longitude ∧ v.longitude ≤ listMaxBy Prod.snd pts) := by
  constructor
  · intro v hv
    obtain ⟨f, i, d, rfl⟩ := MapScreen.mem_generate_map hv
    have hb := lerp_point_in_bbox (MapScreen.samplePath_eq_lerp_map dist hnn hlen f)
    simpa [MapScreen.makeVehicleAtFraction] using hb
  · intro v hv
    obtain ⟨f, d, i, rfl⟩ := TransportService.mem_generate_trans hv
    have hb := lerp_point_in_bbox (TransportService.samplePath_eq_lerp_trans dist hnn hlen f)
    simpa [TransportService.placeVehicle] using hb

/-- Witness for C4 at a concrete route, path, time and nonnegative distance
function. -/
theorem c4_path_containment_witness :
    (∀ a b c d : ℚ, 0 ≤ taxiDist a b c d) ∧
    2 ≤ ([((53 : ℚ), (-6 : ℚ)), (53, -5), (54, -5)] : List Coord).length ∧
    (∀ v ∈ MapScreen.generateSimulatedVehiclesForRoute taxiDist ⟨"15"⟩
        [((53 : ℚ), (-6 : ℚ)), (53, -5), (54, -5)] ⟨8, 30, 0, 1700000000000⟩,
      listMinBy Prod.fst [((53 : ℚ), (-6 : ℚ)), (53, -5), (54, -5)] ≤ v.latitude ∧
      v.latitude ≤ listMaxBy Prod.fst [((53 : ℚ), (-6 : ℚ)), (53, -5), (54, -5)] ∧
      listMinBy Prod.snd [((53 : ℚ), (-6 : ℚ)), (53, -5), (54, -5)] ≤ v.longitude ∧
      v.longitude ≤ listMaxBy Prod.snd [((53 : ℚ), (-6 : ℚ)), (53, -5), (54, -5)]) ∧
    (∀ v ∈ TransportService.generateSimulatedVehiclesForRoute taxiDist ⟨"15"⟩
        [((53 : ℚ), (-6 : ℚ)), (53, -5), (54, -5)] ⟨8, 30, 0, 1700000000000⟩,
      listMinBy Prod.fst [((53 : ℚ), (-6 : ℚ)), (53, -5), (54, -5)] ≤ v.latitude ∧
      v.latitude ≤ listMaxBy Prod.fst [((53 : ℚ), (-6 : ℚ)), (53, -5), (54, -5)] ∧
      listMinBy Prod.snd [((53 : ℚ), (-6 : ℚ)), (53, -5), (54, -5)] ≤ v.longitude ∧
      v.longitude ≤ listMaxBy Prod.snd [((53 : ℚ), (-6 : ℚ)), (53, -5), (54, -5)]) := by
  have hnn : ∀ a b c d : ℚ, 0 ≤ taxiDist a b c d := by
    intro a b c d
    have h1 : (0 : ℚ) ≤ |c - a| := abs_nonneg _
    have h2 : (0 : ℚ) ≤ |d - b| := abs_nonneg _
    unfold taxiDist
    linarith
  have hlen : 2 ≤ ([((53 : ℚ), (-6 : ℚ)), (53, -5), (54, -5)] : List Coord).length := by decide
  obtain ⟨h1, h2⟩ := c4_path_containment taxiDist ⟨"15"⟩
    [((53 : ℚ), (-6 : ℚ)), (53, -5), (54, -5)] ⟨8, 30, 0, 1700000000000⟩ hnn hlen
  exact ⟨hnn, hlen, h1, h2⟩

lemma busesPerDirection_eq_six : MapScreen.busesPerDirection = 6 := by
  have h : ⌈MapScreen.TRIP_MIN / MapScreen.HEADWAY_MIN⌉ = 6 := by
    norm_num [MapScreen.TRIP_MIN, MapScreen.HEADWAY_MIN]
  rw [MapScreen.busesPerDirection, h]
  rfl

lemma busesPerDir_eq_three : TransportService.busesPerDir = 3 := by
  have h : ⌈TransportService.TRIP_DURATION_MIN / TransportService.HEADWAY_MIN⌉ = 3 := by
    norm_num [TransportService.TRIP_DURATION_MIN, TransportService.HEADWAY_MIN]
  rw [TransportService.busesPerDir, h]
  rfl

/-- C1 (counterexample).  A two-point path whose points coincide has at
least 2 points, yet the MapScreen generator returns the empty list (its
`total === 0` short circuit fires), not `2 x ceil(trip / headway)`
vehicles. -/
theorem c1_cardinality_counterexample :
    2 ≤ ([((0 : ℚ), (0 : ℚ)), (0, 0)] : List Coord).length ∧
    MapScreen.generateSimulatedVehiclesForRoute taxiDist ⟨"15"⟩
        [((0 : ℚ), (0 : ℚ)), (0, 0)] ⟨8, 0, 0, 0⟩ = [] ∧
    (MapScreen.generateSimulatedVehiclesForRoute taxiDist ⟨"15"⟩
        [((0 : ℚ), (0 : ℚ)), (0, 0)] ⟨8, 0, 0, 0⟩).length ≠
      2 * MapScreen.busesPerDirection := by
  have hz : MapScreen.generateSimulatedVehiclesForRoute taxiDist ⟨"15"⟩
      [((0 : ℚ), (0 : ℚ)), (0, 0)] ⟨8, 0, 0, 0⟩ = [] := by
    norm_num [MapScreen.generateSimulatedVehiclesForRoute, totalDistOf, cumulativeOf,
      cumAux, taxiDist]
  refine ⟨by norm_num, hz, ?_⟩
  rw [hz, busesPerDirection_eq_six]
  norm_num

/-- C1 (amended).  Both generators return the empty list for a path with
fewer than 2 points.  The MapScreen generator also returns the empty list
(not an error) whenever the computed total path length is 0; for a path
with at least 2 points and nonzero total length it returns exactly
`2 x ceil(60 / 10) = 12` vehicles.  The transportService generator returns
exactly `2 x ceil(45 / 15) = 6` vehicles for every path with at least 2
points. -/
theorem c1_cardinality_amended (dist : ℚ → ℚ → ℚ → ℚ → ℚ) (route : Route)
    (pts : List Coord) (now : DateTime) :
    (pts.length < 2 →
      MapScreen.generateSimulatedVehiclesForRoute dist route pts now = [] ∧
      TransportService.generateSimulatedVehiclesForRoute dist route pts now = []) ∧
    (totalDistOf dist pts = 0 →
      MapScreen.generateSimulatedVehiclesForRoute dist route pts now = []) ∧
    (2 ≤ pts.length → totalDistOf dist pts ≠ 0 →
      (MapScreen.generateSimulatedVehiclesForRoute dist route pts now).length =
        2 * MapScreen.busesPerDirection) ∧
    (2 ≤ pts.length →
      (TransportService.generateSimulatedVehiclesForRoute dist route pts now).length =
        2 * TransportService.busesPerDir) := by
  refine ⟨fun hlt => ⟨?_, ?_⟩, fun htot0 => ?_, fun hge htot => ?_, fun hge => ?_⟩
  · simp [MapScreen.generateSimulatedVehiclesForRoute, hlt]
  · simp [TransportService.generateSimulatedVehiclesForRoute, hlt]
  · by_cases hlt : pts.length < 2
    · simp [MapScreen.generateSimulatedVehiclesForRoute, hlt]
    · simp [MapScreen.generateSimulatedVehiclesForRoute, hlt, htot0]
  · have hnlt : ¬ pts.length < 2 := not_lt.mpr hge
    simp [MapScreen.generateSimulatedVehiclesForRoute, hnlt, htot]
    omega
  · have hnlt : ¬ pts.length < 2 := not_lt.mpr hge
    simp [TransportService.generateSimulatedVehiclesForRoute, hnlt]
    omega

/-- Witness for C1 (amended): a one-point path gives no vehicles; a
two-point path of identical points has total length 0 and gives no
MapScreen vehicles; a proper two-point path gives 12 MapScreen vehicles
and 6 transportService ones. -/
theorem c1_cardinality_witness :
    (([((0 : ℚ), (0 : ℚ))] : List Coord).length < 2 ∧
      MapScreen.generateSimulatedVehiclesForRoute taxiDist ⟨"15"⟩
        [((0 : ℚ), (0 : ℚ))] ⟨8, 0, 0, 0⟩ = [] ∧
      TransportService.generateSimulatedVehiclesForRoute taxiDist ⟨"15"⟩
        [((0 : ℚ), (0 : ℚ))] ⟨8, 0, 0, 0⟩ = []) ∧
    (totalDistOf taxiDist [((0 : ℚ), (0 : ℚ)), (0, 0)] = 0 ∧
      MapScreen.generateSimulatedVehiclesForRoute taxiDist ⟨"15"⟩
        [((0 : ℚ), (0 : ℚ)), (0, 0)] ⟨8, 0, 0, 0⟩ = []) ∧
    (2 ≤ ([((0 : ℚ), (0 : ℚ)), (0, 1)] : List Coord).length ∧
      totalDistOf taxiDist [((0 : ℚ), (0 : ℚ)), (0, 1)] ≠ 0 ∧
      (MapScreen.generateSimulatedVehiclesForRoute taxiDist ⟨"15"⟩
        [((0 : ℚ), (0 : ℚ)), (0, 1)] ⟨8, 0, 0, 0⟩).length = 2 * MapScreen.busesPerDirection ∧
      (TransportService.generateSimulatedVehiclesForRoute taxiDist ⟨"15"⟩
        [((0 : ℚ), (0 : ℚ)), (0, 1)] ⟨8, 0, 0, 0⟩).length = 2 * TransportService.busesPerDir) := by
  have hlt : ([((0 : ℚ), (0 : ℚ))] : List Coord).length < 2 := by norm_num
  have hge : 2 ≤ ([((0 : ℚ), (0 : ℚ)), (0, 1)] : List Coord).length := by norm_num
  have htot0 : totalDistOf taxiDist [((0 : ℚ), (0 : ℚ)), (0, 0)] = 0 := by
    norm_num [totalDistOf, cumulativeOf, cumAux, taxiDist]
  have htot : totalDistOf taxiDist [((0 : ℚ), (0 : ℚ)), (0, 1)] ≠ 0 := by
    norm_num [totalDistOf, cumulativeOf, cumAux, taxiDist]
  obtain ⟨he, _, _, _⟩ := c1_cardinality_amended taxiDist ⟨"15"⟩
    [((0 : ℚ), (0 : ℚ))] ⟨8, 0, 0, 0⟩
  obtain ⟨_, hz, _, _⟩ := c1_cardinality_amended taxiDist ⟨"15"⟩
    [((0 : ℚ), (0 : ℚ)), (0, 0)] ⟨8, 0, 0, 0⟩
  obtain ⟨_, _, hc12, hc6⟩ := c1_cardinality_amended taxiDist ⟨"15"⟩
    [((0 : ℚ), (0 : ℚ)), (0, 1)] ⟨8, 0, 0, 0⟩
  exact ⟨⟨hlt, (he hlt).1, (he hlt).2⟩, ⟨htot0, hz htot0⟩, hge, htot, hc12 hge htot, hc6 hge⟩

/-- C2.  Determinism: for a fixed distance function, route, path, and
reference timestamp, two invocations of either generator produce identical
vehicle lists (in particular identical latitude and longitude values); the
embedded generators read nothing besides their arguments. -/
theorem c2_determinism (dist : ℚ → ℚ → ℚ → ℚ → ℚ) (route : Route) (pts : List Coord)
    (now : DateTime) :
    MapScreen.generateSimulatedVehiclesForRoute dist route pts now =
      MapScreen.generateSimulatedVehiclesForRoute dist route pts now ∧
    (MapScreen.generateSimulatedVehiclesForRoute dist route pts now).map coordOf =
      (MapScreen.generateSimulatedVehiclesForRoute dist route pts now).map coordOf ∧
    TransportService.generateSimulatedVehiclesForRoute dist route pts now =
      TransportService.generateSimulatedVehiclesForRoute dist route pts now ∧
    (TransportService.generateSimulatedVehiclesForRoute dist route pts now).map coordOf =
      (TransportService.generateSimulatedVehiclesForRoute dist route pts now).map coordOf :=
  ⟨rfl, rfl, rfl, rfl⟩

lemma targetDist_congr (dist : ℚ → ℚ → ℚ → ℚ → ℚ) (pts : List Coord) {f1 f2 : ℚ}
    (h : wrap01 f1 = wrap01 f2) : targetDistOf dist pts f1 = targetDistOf dist pts f2 := by
  unfold targetDistOf
  rw [h]

lemma segIndex_congr (dist : ℚ → ℚ → ℚ → ℚ → ℚ) (pts : List Coord) {f1 f2 : ℚ}
    (h : wrap01 f1 = wrap01 f2) : segIndexOf dist pts f1 = segIndexOf dist pts f2 := by
  unfold segIndexOf
  rw [targetDist_congr dist pts h]

/-- The MapScreen sampler depends on the raw fraction only through its
wrapped value. -/
lemma MapScreen.samplePath_congr_map (dist : ℚ → ℚ → ℚ → ℚ → ℚ) (pts : List Coord) {f1 f2 : ℚ}
    (h : wrap01 f1 = wrap01 f2) :
    MapScreen.samplePath dist pts f1 = MapScreen.samplePath dist pts f2 := by
  simp only [MapScreen.samplePath, targetDist_congr dist pts h, segIndex_congr dist pts h]

/-- The transportService sampler depends on the raw fraction only through
its wrapped value. -/
lemma TransportService.samplePath_congr_trans (dist : ℚ → ℚ → ℚ → ℚ → ℚ) (pts : List Coord)
    {f1 f2 : ℚ} (h : wrap01 f1 = wrap01 f2) :
    TransportService.samplePath dist pts f1 = TransportService.samplePath dist pts f2 := by
  simp only [TransportService.samplePath, targetDist_congr dist pts h, segIndex_congr dist pts h]

lemma coordOf_makeVehicle (dist : ℚ → ℚ → ℚ → ℚ → ℚ) (route : Route) (pts : List Coord)
    (now : DateTime) (f : ℚ) (i d : ℕ) :
    coordOf (MapScreen.makeVehicleAtFraction dist route pts now f i d) =
      MapScreen.samplePath dist pts f := rfl

lemma coordOf_placeVehicle (dist : ℚ → ℚ → ℚ → ℚ → ℚ) (route : Route) (pts : List Coord)
    (now : DateTime) (f : ℚ) (d i : ℕ) :
    coordOf (TransportService.placeVehicle dist route pts now f d i) =
      TransportService.samplePath dist pts f := rfl

lemma wrapDay_shift {m2 m1 T : ℚ} (h : m2 = wrapDay (m1 + T)) :
    ∃ k : ℤ, m2 = m1 + T - 1440 * k :=
  ⟨⌊(m1 + T) / 1440⌋, by rw [h, wrapDay]⟩

lemma fraction_shift_sixty {m1 m2 : ℚ} (k : ℤ) (hm : m2 = m1 + 60 - 1440 * k) (off : ℚ) :
    wrap01 ((m2 - off) / 60) = wrap01 ((m1 - off) / 60) := by
  have h : (m2 - off) / 60 = (m1 - off) / 60 + ((1 - 24 * k : ℤ) : ℚ) := by
    rw [hm]; push_cast; ring
  rw [h, wrap01_add_int]

lemma fraction_shift_sixty_inv {m1 m2 : ℚ} (k : ℤ) (hm : m2 = m1 + 60 - 1440 * k) (off : ℚ) :
    wrap01 (1 - (m2 - off) / 60) = wrap01 (1 - (m1 - off) / 60) := by
  have h : 1 - (m2 - off) / 60 = (1 - (m1 - off) / 60) + ((24 * k - 1 : ℤ) : ℚ) := by
    rw [hm]; push_cast; ring
  rw [h, wrap01_add_int]

lemma fraction_shift_fortyfive {m1 m2 : ℚ} (k : ℤ) (hm : m2 = m1 + 45 - 1440 * k) (off : ℚ) :
    wrap01 ((m2 - off) / 45) = wrap01 ((m1 - off) / 45) := by
  have h : (m2 - off) / 45 = (m1 - off) / 45 + ((1 - 32 * k : ℤ) : ℚ) := by
    rw [hm]; push_cast; ring
  rw [h, wrap01_add_int]

lemma fraction_shift_fortyfive_inv {m1 m2 : ℚ} (k : ℤ) (hm : m2 = m1 + 45 - 1440 * k) (off : ℚ) :
    wrap01 (1 - (m2 - off) / 45) = wrap01 (1 - (m1 - off) / 45) := by
  have h : 1 - (m2 - off) / 45 = (1 - (m1 - off) / 45) + ((32 * k - 1 : ℤ) : ℚ) := by
    rw [hm]; push_cast; ring
  rw [h, wrap01_add_int]

/-- C3.  Periodicity: advancing the reference time by exactly the trip
duration (60 minutes for the MapScreen generator, 45 for the
transportService one), with minutes-since-midnight wrapping modulo 1440 so
that crossing midnight is covered, leaves every emitted coordinate
unchanged for every route, path, direction, and slot. -/
theorem c3_periodicity (dist : ℚ → ℚ → ℚ → ℚ → ℚ) (route : Route) (pts : List Coord)
    (t1 t2 u1 u2 : DateTime)
    (hm : minutesSinceMidnight t2 = wrapDay (minutesSinceMidnight t1 + MapScreen.TRIP_MIN))
    (hu : minutesSinceMidnight u2 =
      wrapDay (minutesSinceMidnight u1 + TransportService.TRIP_DURATION_MIN)) :
    (MapScreen.generateSimulatedVehiclesForRoute dist route pts t2).map coordOf =
      (MapScreen.generateSimulatedVehiclesForRoute dist route pts t1).map coordOf ∧
    (TransportService.generateSimulatedVehiclesForRoute dist route pts u2).map coordOf =
      (TransportService.generateSimulatedVehiclesForRoute dist route pts u1).map coordOf := by
  constructor
  · obtain ⟨k, hk⟩ := wrapDay_shift (T := MapScreen.TRIP_MIN) hm
    unfold MapScreen.generateSimulatedVehiclesForRoute
    split
    · rfl
    split
    · rfl
    simp only [List.map_append, List.map_map]
    congr 1
    · apply List.map_congr_left
      intro i _
      simp only [Function.comp_apply, coordOf_makeVehicle]
      exact MapScreen.samplePath_congr_map dist pts
        (fraction_shift_sixty k hk ((i : ℚ) * MapScreen.HEADWAY_MIN))
    · apply List.map_congr_left
      intro i _
      simp only [Function.comp_apply, coordOf_makeVehicle]
      exact MapScreen.samplePath_congr_map dist pts
        (fraction_shift_sixty_inv k hk ((i : ℚ) * MapScreen.HEADWAY_MIN))
  · obtain ⟨k, hk⟩ := wrapDay_shift (T := TransportService.TRIP_DURATION_MIN) hu
    unfold TransportService.generateSimulatedVehiclesForRoute
    split
    · rfl
    simp only [List.map_append, List.map_map]
    congr 1
    · apply List.map_congr_left
      intro i _
      simp only [Function.comp_apply, coordOf_placeVehicle]
      exact TransportService.samplePath_congr_trans dist pts
        (fraction_shift_fortyfive k hk ((i : ℚ) * TransportService.HEADWAY_MIN))
    · apply List.map_congr_left
      intro i _
      simp only [Function.comp_apply, coordOf_placeVehicle]
      exact TransportService.samplePath_congr_trans dist pts
        (fraction_shift_fortyfive_inv k hk
          ((i : ℚ) * TransportService.HEADWAY_MIN + TransportService.HEADWAY_MIN / 2))
  
/-- Witness for C3: advancing 23:30 by 60 minutes crosses midnight to
00:30, and advancing 23:45 by 45 minutes crosses midnight to 00:30. -/
theorem c3_periodicity_witness :
    (minutesSinceMidnight ⟨0, 30, 0, 99⟩ =
      wrapDay (minutesSinceMidnight ⟨23, 30, 0, 7⟩ + MapScreen.TRIP_MIN)) ∧
    (minutesSinceMidnight ⟨0, 30, 0, 99⟩ =
      wrapDay (minutesSinceMidnight ⟨23, 45, 0, 7⟩ + TransportService.TRIP_DURATION_MIN)) ∧
    ((MapScreen.generateSimulatedVehiclesForRoute taxiDist ⟨"15"⟩
        [((0 : ℚ), (0 : ℚ)), (0, 1)] ⟨0, 30, 0, 99⟩).map coordOf =
      (MapScreen.generateSimulatedVehiclesForRoute taxiDist ⟨"15"⟩
        [((0 : ℚ), (0 : ℚ)), (0, 1)] ⟨23, 30, 0, 7⟩).map coordOf) ∧
    ((TransportService.generateSimulatedVehiclesForRoute taxiDist ⟨"15"⟩
        [((0 : ℚ), (0 : ℚ)), (0, 1)] ⟨0, 30, 0, 99⟩).map coordOf =
      (TransportService.generateSimulatedVehiclesForRoute taxiDist ⟨"15"⟩
        [((0 : ℚ), (0 : ℚ)), (0, 1)] ⟨23, 45, 0, 7⟩).map coordOf) := by
  have hm : minutesSinceMidnight ⟨0, 30, 0, 99⟩ =
      wrapDay (minutesSinceMidnight ⟨23, 30, 0, 7⟩ + MapScreen.TRIP_MIN) := by
    norm_num [minutesSinceMidnight, wrapDay, MapScreen.TRIP_MIN]
  have hu : minutesSinceMidnight ⟨0, 30, 0, 99⟩ =
      wrapDay (minutesSinceMidnight ⟨23, 45, 0, 7⟩ + TransportService.TRIP_DURATION_MIN) := by
    norm_num [minutesSinceMidnight, wrapDay, TransportService.TRIP_DURATION_MIN]
  obtain ⟨h1, h2⟩ := c3_periodicity taxiDist ⟨"15"⟩ [((0 : ℚ), (0 : ℚ)), (0, 1)]
    ⟨23, 30, 0, 7⟩ ⟨0, 30, 0, 99⟩ ⟨23, 45, 0, 7⟩ ⟨0, 30, 0, 99⟩ hm hu
  exact ⟨hm, hu, h1, h2⟩

lemma range_three : List.range 3 = [0, 1, 2] := rfl

lemma range_six : List.range 6 = [0, 1, 2, 3, 4, 5] := rfl

lemma wrap01_wrap01 (f : ℚ) : wrap01 (wrap01 f) = wrap01 f := by
  rw [wrap01_eq_fract, wrap01_eq_fract, Int.fract_fract]

lemma getD_map_range_append_left {α : Type} (f g : ℕ → α) (n i : ℕ) (hi : i < n) (d : α) :
    ((List.range n).map f ++ (List.range n).map g).getD i d = f i := by
  rw [List.getD_eq_getElem _ _ (by simp; omega)]
  rw [List.getElem_append_left (by simp; omega)]
  simp

lemma getD_map_range_append_right {α : Type} (f g : ℕ → α) (n i : ℕ) (hi : i < n) (d : α) :
    ((List.range n).map f ++ (List.range n).map g).getD (n + i) d = g i := by
  rw [List.getD_eq_getElem _ _ (by simp; omega)]
  rw [List.getElem_append_right (by simp)]
  simp [hi]

/-- C5 (counterexample).  In the transportService generator at midnight on
the two-point path [(0,0),(0,1)], the direction-1 slot-0 vehicle does not
sit at the coordinate direction 0 would have at wrapped progress `1 - p`
(with `p` the direction-0 slot-0 wrapped progress): direction 1 is phase
shifted by half a headway, so it sits at longitude 1/6 instead of 0. -/
theorem c5_direction_symmetry_counterexample :
    coordOf ((TransportService.generateSimulatedVehiclesForRoute taxiDist ⟨"15"⟩
        [((0 : ℚ), (0 : ℚ)), (0, 1)] ⟨0, 0, 0, 0⟩).getD
          (TransportService.busesPerDir + 0) noVehicle) ≠
      TransportService.samplePath taxiDist [((0 : ℚ), (0 : ℚ)), (0, 1)]
        (1 - wrap01 ((minutesSinceMidnight ⟨0, 0, 0, 0⟩ -
            (0 : ℚ) * TransportService.HEADWAY_MIN) / TransportService.TRIP_DURATION_MIN)) := by
  have h1 : coordOf ((TransportService.generateSimulatedVehiclesForRoute taxiDist ⟨"15"⟩
      [((0 : ℚ), (0 : ℚ)), (0, 1)] ⟨0, 0, 0, 0⟩).getD
        (TransportService.busesPerDir + 0) noVehicle) = (0, 1/6) := by
    norm_num [TransportService.generateSimulatedVehiclesForRoute, TransportService.placeVehicle,
      TransportService.samplePath, busesPerDir_eq_three, TransportService.HEADWAY_MIN,
      TransportService.TRIP_DURATION_MIN, minutesSinceMidnight, targetDistOf, segIndexOf,
      totalDistOf, cumulativeOf, cumAux, segScan, wrap01, jsMod, jsTrunc, jsOr, taxiDist,
      coordOf, noVehicle, range_three]
  have h2 : TransportService.samplePath taxiDist [((0 : ℚ), (0 : ℚ)), (0, 1)]
      (1 - wrap01 ((minutesSinceMidnight ⟨0, 0, 0, 0⟩ -
          (0 : ℚ) * TransportService.HEADWAY_MIN) / TransportService.TRIP_DURATION_MIN)) =
      (0, 0) := by
    norm_num [TransportService.samplePath, TransportService.HEADWAY_MIN,
      TransportService.TRIP_DURATION_MIN, minutesSinceMidnight, targetDistOf, segIndexOf,
      totalDistOf, cumulativeOf, cumAux, segScan, wrap01, jsMod, jsTrunc, jsOr, taxiDist]
  rw [h1, h2]
  norm_num [Prod.ext_iff]

/-- C5 (amended).  Direction symmetry, as the code implements it: in the
MapScreen generator, for every slot `i`, the direction-1 vehicle's emitted
coordinate equals the path sampled at `1 - p`, where `p` is the
direction-0 slot-`i` vehicle's wrapped progress at the same reference time
(and the direction-0 vehicle itself sits at the path sampled at `p`) — so
direction 1 traverses the same physical path end to start.  In the
transportService generator, direction 1 slots are additionally offset by
half a headway, so the direction-1 vehicle's coordinate equals the path
sampled at `1 - p'` where `p'` is the wrapped progress computed with the
half-headway offset. -/
theorem c5_direction_symmetry_amended (dist : ℚ → ℚ → ℚ → ℚ → ℚ) (route : Route)
    (pts : List Coord) (now : DateTime) (hlen : 2 ≤ pts.length)
    (htot : totalDistOf dist pts ≠ 0) :
    (∀ i, i < MapScreen.busesPerDirection →
      coordOf ((MapScreen.generateSimulatedVehiclesForRoute dist route pts now).getD
          i noVehicle) =
        MapScreen.samplePath dist pts
          (wrap01 ((minutesSinceMidnight now - (i : ℚ) * MapScreen.HEADWAY_MIN) /
            MapScreen.TRIP_MIN)) ∧
      coordOf ((MapScreen.generateSimulatedVehiclesForRoute dist route pts now).getD
          (MapScreen.busesPerDirection + i) noVehicle) =
        MapScreen.samplePath dist pts
          (1 - wrap01 ((minutesSinceMidnight now - (i : ℚ) * MapScreen.HEADWAY_MIN) /
            MapScreen.TRIP_MIN))) ∧
    (∀ i, i < TransportService.busesPerDir →
      coordOf ((TransportService.generateSimulatedVehiclesForRoute dist route pts now).getD
          (TransportService.busesPerDir + i) noVehicle) =
        TransportService.samplePath dist pts
          (1 - wrap01 ((minutesSinceMidnight now -
              ((i : ℚ) * TransportService.HEADWAY_MIN + TransportService.HEADWAY_MIN / 2)) /
            TransportService.TRIP_DURATION_MIN))) := by
  have hn1 : ¬ pts.length < 2 := not_lt.mpr hlen
  constructor
  · intro i hi
    unfold MapScreen.generateSimulatedVehiclesForRoute
    rw [if_neg hn1, if_neg htot]
    rw [getD_map_range_append_left _ _ _ _ hi, getD_map_range_append_right _ _ _ _ hi]
    constructor
    · rw [coordOf_makeVehicle]
      exact MapScreen.samplePath_congr_map dist pts (wrap01_wrap01 _).symm
    · rw [coordOf_makeVehicle]
      exact MapScreen.samplePath_congr_map dist pts (wrap01_one_sub_wrap _).symm
  · intro i hi
    unfold TransportService.generateSimulatedVehiclesForRoute
    rw [if_neg hn1]
    rw [getD_map_range_append_right _ _ _ _ hi]
    rw [coordOf_placeVehicle]
    exact TransportService.samplePath_congr_trans dist pts (wrap01_one_sub_wrap _).symm

/-- Witness for C5 (amended) on the two-point path [(0,0),(0,1)]. -/
theorem c5_direction_symmetry_witness :
    2 ≤ ([((0 : ℚ), (0 : ℚ)), (0, 1)] : List Coord).length ∧
    totalDistOf taxiDist [((0 : ℚ), (0 : ℚ)), (0, 1)] ≠ 0 ∧
    (∀ i, i < MapScreen.busesPerDirection →
      coordOf ((MapScreen.generateSimulatedVehiclesForRoute taxiDist ⟨"15"⟩
          [((0 : ℚ), (0 : ℚ)), (0, 1)] ⟨9, 15, 0, 5⟩).getD i noVehicle) =
        MapScreen.samplePath taxiDist [((0 : ℚ), (0 : ℚ)), (0, 1)]
          (wrap01 ((minutesSinceMidnight ⟨9, 15, 0, 5⟩ - (i : ℚ) * MapScreen.HEADWAY_MIN) /
            MapScreen.TRIP_MIN)) ∧
      coordOf ((MapScreen.generateSimulatedVehiclesForRoute taxiDist ⟨"15"⟩
          [((0 : ℚ), (0 : ℚ)), (0, 1)] ⟨9, 15, 0, 5⟩).getD
            (MapScreen.busesPerDirection + i) noVehicle) =
        MapScreen.samplePath taxiDist [((0 : ℚ), (0 : ℚ)), (0, 1)]
          (1 - wrap01 ((minutesSinceMidnight ⟨9, 15, 0, 5⟩ - (i : ℚ) * MapScreen.HEADWAY_MIN) /
            MapScreen.TRIP_MIN))) ∧
    (∀ i, i < TransportService.busesPerDir →
      coordOf ((TransportService.generateSimulatedVehiclesForRoute taxiDist ⟨"15"⟩
          [((0 : ℚ), (0 : ℚ)), (0, 1)] ⟨9, 15, 0, 5⟩).getD
            (TransportService.busesPerDir + i) noVehicle) =
        TransportService.samplePath taxiDist [((0 : ℚ), (0 : ℚ)), (0, 1)]
          (1 - wrap01 ((minutesSinceMidnight ⟨9, 15, 0, 5⟩ -
              ((i : ℚ) * TransportService.HEADWAY_MIN + TransportService.HEADWAY_MIN / 2)) /
            TransportService.TRIP_DURATION_MIN))) := by
  have hlen : 2 ≤ ([((0 : ℚ), (0 : ℚ)), (0, 1)] : List Coord).length := by norm_num
  have htot : totalDistOf taxiDist [((0 : ℚ), (0 : ℚ)), (0, 1)] ≠ 0 := by
    norm_num [totalDistOf, cumulativeOf, cumAux, taxiDist]
  obtain ⟨h1, h2⟩ := c5_direction_symmetry_amended taxiDist ⟨"15"⟩
    [((0 : ℚ), (0 : ℚ)), (0, 1)] ⟨9, 15, 0, 5⟩ hlen htot
  exact ⟨hlen, htot, h1, h2⟩

lemma taxiDist_nonneg : ∀ a b c d : ℚ, 0 ≤ taxiDist a b c d := by
  intro a b c d
  have h1 : (0 : ℚ) ≤ |c - a| := abs_nonneg _
  have h2 : (0 : ℚ) ≤ |d - b| := abs_nonneg _
  unfold taxiDist
  linarith

/-- C6.  Zero-length-segment safety: whenever the located segment is
degenerate (its two cumulative entries coincide, as happens at two
consecutive identical path points), both samplers use interpolation factor
0 — no division by the zero segment length is performed — and return the
segment's start point exactly, a defined coordinate. -/
theorem c6_zero_length_segment_safety (dist : ℚ → ℚ → ℚ → ℚ → ℚ) (pts : List Coord) (f : ℚ)
    (hnn : ∀ a b c d, 0 ≤ dist a b c d) (hlen : 2 ≤ pts.length)
    (hdeg : (cumulativeOf dist pts).getD
        (min (segIndexOf dist pts f + 1) ((cumulativeOf dist pts).length - 1)) 0 =
      (cumulativeOf dist pts).getD (segIndexOf dist pts f) 0) :
    MapScreen.samplePath dist pts f = pts.getD (segIndexOf dist pts f) (0, 0) ∧
    TransportService.samplePath dist pts f = pts.getD (segIndexOf dist pts f) (0, 0) := by
  obtain ⟨hint, hlo, hhi⟩ := located_segment dist hnn hlen f
  have hne : pts ≠ [] := by intro h; rw [h] at hlen; simp at hlen
  have hclen : (cumulativeOf dist pts).length = pts.length := length_cumulativeOf dist hne
  have hmin1 : min (segIndexOf dist pts f + 1) ((cumulativeOf dist pts).length - 1) =
      segIndexOf dist pts f + 1 := Nat.min_eq_left (by omega)
  have hmin2 : min (segIndexOf dist pts f + 1) (pts.length - 1) =
      segIndexOf dist pts f + 1 := Nat.min_eq_left (by omega)
  rw [hmin1] at hdeg
  have hts : targetDistOf dist pts f = (cumulativeOf dist pts).getD (segIndexOf dist pts f) 0 := by
    refine le_antisymm ?_ hlo
    rw [← hdeg]
    exact hhi
  constructor
  · simp only [MapScreen.samplePath, hmin1, hmin2, if_pos hdeg]
    simp
  · simp only [TransportService.samplePath, hmin1, hmin2, hdeg, hts]
    simp [jsOr]

/-- Witness for C6: the path [(2,3),(2,3),(5,7)] has a zero-length first
segment, which is the one located at fraction 0; both samplers return the
exact point (2,3). -/
theorem c6_zero_length_segment_witness :
    (∀ a b c d : ℚ, 0 ≤ taxiDist a b c d) ∧
    2 ≤ ([((2 : ℚ), (3 : ℚ)), (2, 3), (5, 7)] : List Coord).length ∧
    ((cumulativeOf taxiDist [((2 : ℚ), (3 : ℚ)), (2, 3), (5, 7)]).getD
        (min (segIndexOf taxiDist [((2 : ℚ), (3 : ℚ)), (2, 3), (5, 7)] 0 + 1)
          ((cumulativeOf taxiDist [((2 : ℚ), (3 : ℚ)), (2, 3), (5, 7)]).length - 1)) 0 =
      (cumulativeOf taxiDist [((2 : ℚ), (3 : ℚ)), (2, 3), (5, 7)]).getD
        (segIndexOf taxiDist [((2 : ℚ), (3 : ℚ)), (2, 3), (5, 7)] 0) 0) ∧
    MapScreen.samplePath taxiDist [((2 : ℚ), (3 : ℚ)), (2, 3), (5, 7)] 0 =
      [((2 : ℚ), (3 : ℚ)), (2, 3), (5, 7)].getD
        (segIndexOf taxiDist [((2 : ℚ), (3 : ℚ)), (2, 3), (5, 7)] 0) (0, 0) ∧
    TransportService.samplePath taxiDist [((2 : ℚ), (3 : ℚ)), (2, 3), (5, 7)] 0 =
      [((2 : ℚ), (3 : ℚ)), (2, 3), (5, 7)].getD
        (segIndexOf taxiDist [((2 : ℚ), (3 : ℚ)), (2, 3), (5, 7)] 0) (0, 0) := by
  have hlen : 2 ≤ ([((2 : ℚ), (3 : ℚ)), (2, 3), (5, 7)] : List Coord).length := by norm_num
  have hdeg : (cumulativeOf taxiDist [((2 : ℚ), (3 : ℚ)), (2, 3), (5, 7)]).getD
      (min (segIndexOf taxiDist [((2 : ℚ), (3 : ℚ)), (2, 3), (5, 7)] 0 + 1)
        ((cumulativeOf taxiDist [((2 : ℚ), (3 : ℚ)), (2, 3), (5, 7)]).length - 1)) 0 =
      (cumulativeOf taxiDist [((2 : ℚ), (3 : ℚ)), (2, 3), (5, 7)]).getD
        (segIndexOf taxiDist [((2 : ℚ), (3 : ℚ)), (2, 3), (5, 7)] 0) 0 := by
    norm_num [cumulativeOf, cumAux, taxiDist, segIndexOf, targetDistOf, totalDistOf,
      segScan, wrap01, jsMod, jsTrunc]
  obtain ⟨h1, h2⟩ := c6_zero_length_segment_safety taxiDist
    [((2 : ℚ), (3 : ℚ)), (2, 3), (5, 7)] 0 taxiDist_nonneg hlen hdeg
  exact ⟨taxiDist_nonneg, hlen, hdeg, h1, h2⟩

lemma simVehicleId_decomp (rid : String) (d i : ℕ) :
    MapScreen.simVehicleId rid d i =
      ("SIM-" ++ rid ++ "-") ++ (toString d ++ "-" ++ toString i) := by
  simp [MapScreen.simVehicleId, String.append_assoc]

lemma gtfsVehicleId_decomp (rid : String) (d i : ℕ) :
    TransportService.gtfsVehicleId rid d i =
      ("GTFS-" ++ rid ++ "-") ++ (toString d ++ "-" ++ toString i) := by
  simp [TransportService.gtfsVehicleId, String.append_assoc]

lemma string_append_left_inj (P : String) : Function.Injective (fun t => P ++ t) := by
  intro a b h
  have hd : (P ++ a).data = (P ++ b).data := congrArg String.data h
  have h2 : P.data ++ a.data = P.data ++ b.data := by
    cases P; cases a; cases b; simpa using hd
  have h3 := List.append_cancel_left h2
  cases a; cases b; exact congrArg String.mk (by simpa using h3)

/-- The vehicle identifier list of the MapScreen generator, in closed form:
it does not depend on the reference time. -/
lemma MapScreen.gen_ids_map (dist : ℚ → ℚ → ℚ → ℚ → ℚ) (route : Route) (pts : List Coord)
    (now : DateTime) :
    (MapScreen.generateSimulatedVehiclesForRoute dist route pts now).map
        (fun v => v.vehicle_id) =
      if pts.length < 2 ∨ totalDistOf dist pts = 0 then [] else
        (List.range MapScreen.busesPerDirection).map (MapScreen.simVehicleId route.route_id 0) ++
        (List.range MapScreen.busesPerDirection).map (MapScreen.simVehicleId route.route_id 1) := by
  by_cases h1 : pts.length < 2
  · simp [MapScreen.generateSimulatedVehiclesForRoute, h1]
  · by_cases h2 : totalDistOf dist pts = 0
    · simp [MapScreen.generateSimulatedVehiclesForRoute, h1, h2]
    · simp [MapScreen.generateSimulatedVehiclesForRoute, h1, h2, List.map_map,
        MapScreen.makeVehicleAtFraction, Function.comp]
      rfl

/-- The vehicle identifier list of the transportService generator, in
closed form: it does not depend on the reference time. -/
lemma TransportService.gen_ids_trans (dist : ℚ → ℚ → ℚ → ℚ → ℚ) (route : Route) (pts : List Coord)
    (now : DateTime) :
    (TransportService.generateSimulatedVehiclesForRoute dist route pts now).map
        (fun v => v.vehicle_id) =
      if pts.length < 2 then [] else
        (List.range TransportService.busesPerDir).map
          (TransportService.gtfsVehicleId route.route_id 0) ++
        (List.range TransportService.busesPerDir).map
          (TransportService.gtfsVehicleId route.route_id 1) := by
  by_cases h1 : pts.length < 2
  · simp [TransportService.generateSimulatedVehiclesForRoute, h1]
  · simp [TransportService.generateSimulatedVehiclesForRoute, h1, List.map_map,
      TransportService.placeVehicle, Function.comp]
    rfl

lemma MapScreen.gen_timestamp_map (dist : ℚ → ℚ → ℚ → ℚ → ℚ) (route : Route) (pts : List Coord)
    (now : DateTime) :
    ∀ v ∈ MapScreen.generateSimulatedVehiclesForRoute dist route pts now,
      v.timestamp = now.epochMs := by
  intro v hv
  obtain ⟨f, i, d, rfl⟩ := MapScreen.mem_generate_map hv
  rfl

lemma TransportService.gen_timestamp_trans (dist : ℚ → ℚ → ℚ → ℚ → ℚ) (route : Route)
    (pts : List Coord) (now : DateTime) :
    ∀ v ∈ TransportService.generateSimulatedVehiclesForRoute dist route pts now,
      v.timestamp = now.epochMs := by
  intro v hv
  obtain ⟨f, d, i, rfl⟩ := TransportService.mem_generate_trans hv
  rfl

/-- C7.  Vehicle identifier stability: for a fixed route and path, both
generators emit exactly the same identifier list at every reference time —
each position's identifier is a function of (route id, direction, slot)
only. -/
theorem c7_vehicle_id_stability (dist : ℚ → ℚ → ℚ → ℚ → ℚ) (route : Route) (pts : List Coord)
    (t1 t2 : DateTime) :
    (MapScreen.generateSimulatedVehiclesForRoute dist route pts t1).map
        (fun v => v.vehicle_id) =
      (MapScreen.generateSimulatedVehiclesForRoute dist route pts t2).map
        (fun v => v.vehicle_id) ∧
    (TransportService.generateSimulatedVehiclesForRoute dist route pts t1).map
        (fun v => v.vehicle_id) =
      (TransportService.generateSimulatedVehiclesForRoute dist route pts t2).map
        (fun v => v.vehicle_id) := by
  constructor
  · rw [MapScreen.gen_ids_map, MapScreen.gen_ids_map]
  · rw [TransportService.gen_ids_trans, TransportService.gen_ids_trans]

/-- C10.  Within any single generated list the vehicle identifiers are
pairwise distinct (each embeds route id, direction, and slot index, and
the direction/slot pairs differ), and every vehicle carries the timestamp
of the invocation's reference time. -/
theorem c10_distinct_ids_same_timestamp (dist : ℚ → ℚ → ℚ → ℚ → ℚ) (route : Route)
    (pts : List Coord) (now : DateTime) :
    ((MapScreen.generateSimulatedVehiclesForRoute dist route pts now).map
        (fun v => v.vehicle_id)).Nodup ∧
    (∀ v ∈ MapScreen.generateSimulatedVehiclesForRoute dist route pts now,
      v.timestamp = now.epochMs) ∧
    ((TransportService.generateSimulatedVehiclesForRoute dist route pts now).map
        (fun v => v.vehicle_id)).Nodup ∧
    (∀ v ∈ TransportService.generateSimulatedVehiclesForRoute dist route pts now,
      v.timestamp = now.epochMs) := by
  refine ⟨?_, MapScreen.gen_timestamp_map dist route pts now, ?_,
    TransportService.gen_timestamp_trans dist route pts now⟩
  · rw [MapScreen.gen_ids_map]
    split
    · simp
    · have e0 : (List.range MapScreen.busesPerDirection).map
          (MapScreen.simVehicleId route.route_id 0) =
          ["0-0", "0-1", "0-2", "0-3", "0-4", "0-5"].map
            (fun t => ("SIM-" ++ route.route_id ++ "-") ++ t) := by
        rw [busesPerDirection_eq_six, range_six]
        simp only [List.map_cons, List.map_nil, simVehicleId_decomp]
        rfl
      have e1 : (List.range MapScreen.busesPerDirection).map
          (MapScreen.simVehicleId route.route_id 1) =
          ["1-0", "1-1", "1-2", "1-3", "1-4", "1-5"].map
            (fun t => ("SIM-" ++ route.route_id ++ "-") ++ t) := by
        rw [busesPerDirection_eq_six, range_six]
        simp only [List.map_cons, List.map_nil, simVehicleId_decomp]
        rfl
      rw [e0, e1, ← List.map_append]
      exact List.Nodup.map (string_append_left_inj _) (by decide)
  · rw [TransportService.gen_ids_trans]
    split
    · simp
    · have e0 : (List.range TransportService.busesPerDir).map
          (TransportService.gtfsVehicleId route.route_id 0) =
          ["0-0", "0-1", "0-2"].map (fun t => ("GTFS-" ++ route.route_id ++ "-") ++ t) := by
        rw [busesPerDir_eq_three, range_three]
        simp only [List.map_cons, List.map_nil, gtfsVehicleId_decomp]
        rfl
      have e1 : (List.range TransportService.busesPerDir).map
          (TransportService.gtfsVehicleId route.route_id 1) =
          ["1-0", "1-1", "1-2"].map (fun t => ("GTFS-" ++ route.route_id ++ "-") ++ t) := by
        rw [busesPerDir_eq_three, range_three]
        simp only [List.map_cons, List.map_nil, gtfsVehicleId_decomp]
        rfl
      rw [e0, e1, ← List.map_append]
      exact List.Nodup.map (string_append_left_inj _) (by decide)

namespace SmoothMarker

/-- The animation state the `SmoothMarker` subclass of MapScreen.tsx keeps:
the underlying Leaflet marker position (what `super.setLatLng` sets), the
interpolation endpoints, the start time and duration, and the pending
animation frame handle (`none` when no animation is scheduled). -/
structure SmoothMarkerState where
  displayed : Coord
  targetLatLng : Coord
  startLatLng : Coord
  startTime : ℚ
  duration : ℚ
  animationFrameId : Option ℕ
deriving DecidableEq, Repr

/-- One `_animate` tick at wall time `now` (MapScreen.tsx, lines 62-78):
clamp progress to 1, linearly interpolate, and on completion set the
displayed position exactly to the target and clear the frame handle. -/
def animateTick (s : SmoothMarkerState) (now : ℚ) : SmoothMarkerState :=
  let elapsed := now - s.startTime
  let progress := min (elapsed / s.duration) 1
  let lat := s.startLatLng.1 + (s.targetLatLng.1 - s.startLatLng.1) * progress
  let lng := s.startLatLng.2 + (s.targetLatLng.2 - s.startLatLng.2) * progress
  if progress < 1 then
    { s with displayed := (lat, lng), animationFrameId := some 0 }
  else
    { s with displayed := s.targetLatLng, animationFrameId := none }

/-- Method `setLatLngSmooth` (MapScreen.tsx, lines 41-60): cancel any pending
frame, capture the current displayed position as the start, record target,
start time and duration; if the distance from start to target exceeds
500 m, snap the displayed position directly to the target and return;
otherwise run the first `_animate` tick immediately.  Leaflet's
`distanceTo` (library code, meters) is abstracted as the parameter
`distM`. -/
def setLatLngSmooth (distM : Coord → Coord → ℚ) (s : SmoothMarkerState) (latlng : Coord)
    (duration now : ℚ) : SmoothMarkerState :=
  let s1 := { s with animationFrameId := none
                     startLatLng := s.displayed
                     targetLatLng := latlng
                     startTime := now
                     duration := duration }
  if 500 < distM s1.startLatLng s1.targetLatLng then
    { s1 with displayed := s1.targetLatLng }
  else
    animateTick s1 now

end SmoothMarker

/-- C8.  Interpolator snap rule: when the new target is farther than 500 m
from the currently displayed coordinate, `setLatLngSmooth` sets the
displayed coordinate exactly equal to the target — never an intermediate
point — and schedules no animation. -/
theorem c8_interpolator_snap (distM : Coord → Coord → ℚ) (s : SmoothMarker.SmoothMarkerState)
    (latlng : Coord) (dur now : ℚ) (h : 500 < distM s.displayed latlng) :
    (SmoothMarker.setLatLngSmooth distM s latlng dur now).displayed = latlng ∧
    (SmoothMarker.setLatLngSmooth distM s latlng dur now).animationFrameId = none := by
  simp [SmoothMarker.setLatLngSmooth, h]

/-- Witness for C8 with the spec's example pair (53.0,-6.0) to (53.1,-6.0),
about 11 km apart, under a distance function reporting 11119 m. -/
theorem c8_interpolator_snap_witness :
    (500 : ℚ) < (fun (_ _ : Coord) => (11119 : ℚ)) ((53 : ℚ), (-6 : ℚ)) (531/10, -6) ∧
    (SmoothMarker.setLatLngSmooth (fun _ _ => 11119)
        ⟨((53 : ℚ), (-6 : ℚ)), (53, -6), (53, -6), 0, 1000, none⟩
        (531/10, -6) 2000 12345).displayed = (531/10, -6) ∧
    (SmoothMarker.setLatLngSmooth (fun _ _ => 11119)
        ⟨((53 : ℚ), (-6 : ℚ)), (53, -6), (53, -6), 0, 1000, none⟩
        (531/10, -6) 2000 12345).animationFrameId = none := by
  have h : (500 : ℚ) < (fun (_ _ : Coord) => (11119 : ℚ)) ((53 : ℚ), (-6 : ℚ)) (531/10, -6) := by
    norm_num
  obtain ⟨h1, h2⟩ := c8_interpolator_snap (fun _ _ => 11119)
    ⟨((53 : ℚ), (-6 : ℚ)), (53, -6), (53, -6), 0, 1000, none⟩ (531/10, -6) 2000 12345 h
  exact ⟨h, h1, h2⟩

/-- A JavaScript number for tracing NaN propagation: either a finite value
(rationals stand in for the floats actually reached) or NaN. -/
inductive JSNum where
  | num : ℚ → JSNum
  | nan : JSNum
deriving DecidableEq, Repr

namespace JSNum

/-- Addition: NaN absorbs. -/
def jadd : JSNum → JSNum → JSNum
  | num a, num b => num (a + b)
  | _, _ => nan

/-- Subtraction: NaN absorbs. -/
def jsub : JSNum → JSNum → JSNum
  | num a, num b => num (a - b)
  | _, _ => nan

/-- Multiplication: NaN absorbs (also `0 * NaN = NaN` in IEEE). -/
def jmul : JSNum → JSNum → JSNum
  | num a, num b => num (a * b)
  | _, _ => nan

/-- Division: NaN absorbs.  A zero divisor (where JS produces ±Infinity
for a nonzero dividend) is mapped to NaN; no modeled evaluation divides by
zero, so this case is never reached in the theorems below. -/
def jdiv : JSNum → JSNum → JSNum
  | num a, num b => if b = 0 then nan else num (a / b)
  | _, _ => nan

/-- JS remainder: NaN absorbs, and `x % 0` is NaN. -/
def jmod : JSNum → JSNum → JSNum
  | num a, num b => if b = 0 then nan else num (jsMod a b)
  | _, _ => nan

/-- JS `<`: every comparison involving NaN is false. -/
def jlt : JSNum → JSNum → Bool
  | num a, num b => decide (a < b)
  | _, _ => false

/-- JS `===` on numbers: `NaN === NaN` is false. -/
def jeq : JSNum → JSNum → Bool
  | num a, num b => decide (a = b)
  | _, _ => false

/-- Absolute value, used by the concrete witness distance function. -/
def jabs : JSNum → JSNum
  | num a => num |a|
  | nan => nan

end JSNum

/-- A JavaScript `Date` as the generator reads it; an Invalid Date (e.g.
`new Date(NaN)`) returns NaN from `getHours`, `getMinutes`, `getSeconds`
and `getTime`. -/
structure JSDate where
  hours : JSNum
  minutes : JSNum
  seconds : JSNum
  epochMs : JSNum
deriving DecidableEq, Repr

/-- The vehicle fields relevant to NaN propagation. -/
structure JSVehicle where
  vehicle_id : String
  latitude : JSNum
  longitude : JSNum
  timestamp : JSNum
  direction_id : ℕ
deriving DecidableEq, Repr

namespace MapScreenJS

open JSNum

/-- Function `minutesSinceMidnight` under NaN semantics. -/
def minutesSinceMidnightJS (t : JSDate) : JSNum :=
  jadd (jadd (jmul t.hours (num 60)) t.minutes) (jdiv t.seconds (num 60))

/-- Cumulative distance loop under NaN semantics. -/
def cumAuxJS (dist : JSNum → JSNum → JSNum → JSNum → JSNum) :
    (JSNum × JSNum) → JSNum → List (JSNum × JSNum) → List JSNum
  | _, _, [] => []
  | p, acc, q :: rest =>
      jadd acc (dist p.1 p.2 q.1 q.2) ::
        cumAuxJS dist q (jadd acc (dist p.1 p.2 q.1 q.2)) rest

/-- The `cumulative` array under NaN semantics. -/
def cumulativeOfJS (dist : JSNum → JSNum → JSNum → JSNum → JSNum) :
    List (JSNum × JSNum) → List JSNum
  | [] => [num 0]
  | p :: rest => num 0 :: cumAuxJS dist p (num 0) rest

/-- The final running total. -/
def totalOfJS (dist : JSNum → JSNum → JSNum → JSNum → JSNum)
    (pts : List (JSNum × JSNum)) : JSNum :=
  (cumulativeOfJS dist pts).getD ((cumulativeOfJS dist pts).length - 1) (num 0)

/-- The segment scan; a NaN target distance makes every comparison false,
so the scan stays at index 0 — exactly as in JS. -/
def segScanJS (target : JSNum) : List JSNum → ℕ
  | _ :: c2 :: rest => if jlt c2 target then segScanJS target (c2 :: rest) + 1 else 0
  | _ => 0

/-- The `((f % 1) + 1) % 1` normalization under NaN semantics. -/
def wrapJS (f : JSNum) : JSNum := jmod (jadd (jmod f (num 1)) (num 1)) (num 1)

/-- The MapScreen sampler under NaN semantics. -/
def samplePathJS (dist : JSNum → JSNum → JSNum → JSNum → JSNum)
    (pts : List (JSNum × JSNum)) (fraction : JSNum) : JSNum × JSNum :=
  let cumulative := cumulativeOfJS dist pts
  let targetDist := jmul (wrapJS fraction) (totalOfJS dist pts)
  let segIndex := segScanJS targetDist cumulative
  let segStart := cumulative.getD segIndex (num 0)
  let segEnd := cumulative.getD (min (segIndex + 1) (cumulative.length - 1)) (num 0)
  let segFraction := if jeq segEnd segStart then num 0
    else jdiv (jsub targetDist segStart) (jsub segEnd segStart)
  let p1 := pts.getD segIndex (num 0, num 0)
  let p2 := pts.getD (min (segIndex + 1) (pts.length - 1)) (num 0, num 0)
  (jadd p1.1 (jmul (jsub p2.1 p1.1) segFraction),
   jadd p1.2 (jmul (jsub p2.2 p1.2) segFraction))

/-- The MapScreen generator under NaN semantics: note that it performs no
validation of the reference timestamp anywhere — the emitted vehicle count
is decided only by the path, and NaN flows into every coordinate. -/
def generateJS (dist : JSNum → JSNum → JSNum → JSNum → JSNum) (route : Route)
    (shapePoints : List (JSNum × JSNum)) (now : JSDate) : List JSVehicle :=
  if shapePoints.length < 2 then [] else
  if jeq (totalOfJS dist shapePoints) (num 0) then [] else
  let m := minutesSinceMidnightJS now
  (List.range MapScreen.busesPerDirection).map (fun (i : ℕ) =>
    let c := samplePathJS dist shapePoints
      (jdiv (jsub m (num ((i : ℚ) * 10))) (num 60))
    { vehicle_id := MapScreen.simVehicleId route.route_id 0 i
      latitude := c.1, longitude := c.2, timestamp := now.epochMs, direction_id := 0 })
  ++ (List.range MapScreen.busesPerDirection).map (fun (i : ℕ) =>
    let c := samplePathJS dist shapePoints
      (jsub (num 1) (jdiv (jsub m (num ((i : ℚ) * 10))) (num 60)))
    { vehicle_id := MapScreen.simVehicleId route.route_id 1 i
      latitude := c.1, longitude := c.2, timestamp := now.epochMs, direction_id := 1 })

end MapScreenJS

/-- Taxicab distance under NaN semantics, for the concrete trace. -/
def taxiDistJS (a b c d : JSNum) : JSNum :=
  JSNum.jadd (JSNum.jabs (JSNum.jsub c a)) (JSNum.jabs (JSNum.jsub d b))

/-- C9.  The generation entry point does not reject a malformed reference
timestamp: fed an Invalid Date (all `Date` getters return NaN) on a proper
two-point path, the generator still returns its full list of 12 vehicles,
every one of them carrying NaN latitude, NaN longitude, and NaN timestamp —
the NaN values are silently propagated, not failed fast. -/
theorem c9_nan_not_rejected :
    (MapScreenJS.generateJS taxiDistJS ⟨"15"⟩
        [(JSNum.num 0, JSNum.num 0), (JSNum.num 0, JSNum.num 1)]
        ⟨JSNum.nan, JSNum.nan, JSNum.nan, JSNum.nan⟩).length = 12 ∧
    (MapScreenJS.generateJS taxiDistJS ⟨"15"⟩
        [(JSNum.num 0, JSNum.num 0), (JSNum.num 0, JSNum.num 1)]
        ⟨JSNum.nan, JSNum.nan, JSNum.nan, JSNum.nan⟩).map
      (fun v => (v.latitude, v.longitude, v.timestamp)) =
      List.replicate 12 (JSNum.nan, JSNum.nan, JSNum.nan) := by
  constructor
  · norm_num [MapScreenJS.generateJS, MapScreenJS.totalOfJS, MapScreenJS.cumulativeOfJS,
      MapScreenJS.cumAuxJS, taxiDistJS, JSNum.jadd, JSNum.jsub, JSNum.jabs, JSNum.jeq,
      busesPerDirection_eq_six]
  · norm_num [MapScreenJS.generateJS, MapScreenJS.totalOfJS, MapScreenJS.cumulativeOfJS,
      MapScreenJS.cumAuxJS, MapScreenJS.samplePathJS, MapScreenJS.segScanJS,
      MapScreenJS.wrapJS, MapScreenJS.minutesSinceMidnightJS, taxiDistJS, JSNum.jadd,
      JSNum.jsub, JSNum.jmul, JSNum.jdiv, JSNum.jmod, JSNum.jabs, JSNum.jeq, JSNum.jlt,
      busesPerDirection_eq_six, range_six, List.replicate]

end DubTransit
